import Mathlib

/-
Verification of the auto-annotation edge function of the
AI Data Annotation and Management project.

The definitions below are a shallow embedding of the Deno edge function
(the annotation batch processor and its four heuristic annotators):
JavaScript strings become Lean `String`s, the regex literals are embedded
as an explicit backtracking matcher faithful to JavaScript regex
semantics for the three patterns that occur, and the request handler's
try/catch becomes an `Except`-valued parse argument.  The pseudo-random
`confidence`/`score` fields (`Math.random()`) are decorative floating
point values and are omitted from the embedded result records.
-/

/-! ## The JavaScript string runtime

The string methods the source calls (`includes`, `toLowerCase`,
`split`, `trim`, `join`) are modelled by structural recursion over
`List Char` so that the kernel can evaluate them on concrete inputs.
-/

/-- Does `s` start with `sub` (over character lists)? -/
def startsWithList : List Char → List Char → Bool
  | _, [] => true
  | [], _ :: _ => false
  | c :: cs, d :: ds => c == d && startsWithList cs ds

/-- Does `sub` occur contiguously inside `s` (over character lists)? -/
def containsList : List Char → List Char → Bool
  | [], sub => startsWithList [] sub
  | c :: rest, sub => startsWithList (c :: rest) sub || containsList rest sub

/-- JavaScript `s.includes(sub)`: contiguous substring test. -/
def includesStr (s sub : String) : Bool :=
  containsList s.data sub.data

/-- JavaScript `s.toLowerCase()` (ASCII; the keyword sets are ASCII). -/
def jsToLower (s : String) : String :=
  String.mk (s.data.map Char.toLower)

/-- Split a character list on a separator character; a trailing
separator yields a trailing empty group, and the empty list is the
single empty group, as in JavaScript. -/
def splitCharList (sep : Char) : List Char → List (List Char)
  | [] => [[]]
  | c :: rest =>
      if c == sep then [] :: splitCharList sep rest
      else
        match splitCharList sep rest with
        | [] => [[c]]
        | group :: groups => (c :: group) :: groups

/-- JavaScript `s.split(sep)` for a one-character separator (the source
splits only on `'\n'` and `' '`). -/
def jsSplit (s : String) (sep : Char) : List String :=
  (splitCharList sep s.data).map String.mk

/-- JavaScript whitespace (`\s`, and the set `trim` strips), restricted
to its ASCII members; the non-ASCII whitespace code points play no role
in the repository's data. -/
def jsWhitespaceChar (c : Char) : Bool :=
  c == ' ' || c == '\t' || c == '\n' || c == '\r' || c == '\x0b' || c == '\x0c'

/-- Drop leading whitespace characters. -/
def dropLeadingWhite : List Char → List Char
  | [] => []
  | c :: rest => if jsWhitespaceChar c then dropLeadingWhite rest else c :: rest

/-- JavaScript `s.trim()` (ASCII whitespace; the non-ASCII code points
`trim` also strips play no role in the repository's data). -/
def jsTrim (s : String) : String :=
  String.mk ((dropLeadingWhite (dropLeadingWhite s.data.reverse).reverse))

/-! ## A small model of the JavaScript regex engine

Only the constructs used by the three regex literals of the source are
modelled: character classes, concatenation, alternation, greedy `*`
(hence `+`, `?`, `{2,}`), and the word-boundary assertion `\b`.
The matcher enumerates candidate match end-positions in exactly the
priority order of a backtracking engine (greedy quantifiers try longer
matches first), so the head of the list is the match JavaScript returns.
-/

/-- JavaScript `\w`: `[A-Za-z0-9_]`. -/
def isWordChar (c : Char) : Bool :=
  c.isAlpha || c.isDigit || c == '_'

/-- Is the character at index `i` a word character (out of range: no)? -/
def wordAt (s : List Char) (i : Nat) : Bool :=
  match s.get? i with
  | some c => isWordChar c
  | none => false

/-- JavaScript `\b`: positions where word-ness changes. -/
def atWordBoundary (s : List Char) (i : Nat) : Bool :=
  (if i == 0 then false else wordAt s (i - 1)) != wordAt s i

/-- Regex abstract syntax: the fragment used by the source's patterns. -/
inductive Rx where
  | eps : Rx
  | cls : (Char → Bool) → Rx
  | seq : Rx → Rx → Rx
  | alt : Rx → Rx → Rx
  | star : Rx → Rx
  | wb : Rx

/-- Backtracking matcher: all end positions of matches of `r` starting at
index `i` of `s`, in backtracking priority order (greedy quantifiers
first).  `fuel` bounds recursion depth; every `star` iteration must
consume at least one character, mirroring the fact that the source's
starred sub-patterns cannot match the empty string. -/
def Rx.run : Nat → Rx → List Char → Nat → List Nat
  | 0, _, _, _ => []
  | _ + 1, .eps, _, i => [i]
  | _ + 1, .cls p, s, i =>
      match s.get? i with
      | some c => if p c then [i + 1] else []
      | none => []
  | fuel + 1, .seq a b, s, i =>
      (Rx.run fuel a s i).flatMap (fun j => Rx.run fuel b s j)
  | fuel + 1, .alt a b, s, i => Rx.run fuel a s i ++ Rx.run fuel b s i
  | fuel + 1, .star a, s, i =>
      ((Rx.run fuel a s i).flatMap
        (fun j => if i < j then Rx.run fuel (.star a) s j else [])) ++ [i]
  | _ + 1, .wb, s, i => if atWordBoundary s i then [i] else []

/-- Greedy `r+`. -/
def Rx.pls (a : Rx) : Rx := .seq a (.star a)

/-- Greedy `r?`. -/
def Rx.opt (a : Rx) : Rx := .alt a .eps

/-- A single literal character. -/
def Rx.chr (c : Char) : Rx := .cls (fun d => d == c)

/-- A literal character sequence. -/
def Rx.lit (cs : List Char) : Rx :=
  cs.foldr (fun c r => .seq (.chr c) r) .eps

/-- Greedy `r{2,}`. -/
def Rx.twoPlus (a : Rx) : Rx := .seq a (Rx.pls a)

/-- Fuel that dominates the recursion depth of `Rx.run` for the source's
three fixed patterns on a string of the given length. -/
def rxFuel (len : Nat) : Nat := (len + 2) * 32

/-- The end position of the match JavaScript's engine finds at index `i`
(the first success in backtracking order), if any. -/
def jsMatchFrom (r : Rx) (s : List Char) (i : Nat) : Option Nat :=
  (Rx.run (rxFuel s.length) r s i).head?

/-- Scan for all matches, as JavaScript global matching does: find the
leftmost match at or after `i`, record it, continue after its end. -/
def jsMatchAllAux : Nat → Rx → List Char → Nat → List String
  | 0, _, _, _ => []
  | fuel + 1, r, s, i =>
      if i > s.length then []
      else
        match jsMatchFrom r s i with
        | some j =>
            if i < j then
              String.mk ((s.drop i).take (j - i)) :: jsMatchAllAux fuel r s j
            else jsMatchAllAux fuel r s (i + 1)
        | none => jsMatchAllAux fuel r s (i + 1)

/-- JavaScript `text.match(regex)` with the `g` flag (`[]` for `null`). -/
def jsMatchAll (r : Rx) (s : String) : List String :=
  jsMatchAllAux (s.length + 2) r s.data 0

/-! ## The three regex literals of `extractEntities` -/

/-- The class `[A-Za-z0-9._%+-]` of the email pattern. -/
def emailLocalChar (c : Char) : Bool :=
  c.isAlpha || c.isDigit || c == '.' || c == '_' || c == '%' || c == '+' || c == '-'

/-- The class `[A-Za-z0-9.-]` of the email pattern. -/
def emailDomainChar (c : Char) : Bool :=
  c.isAlpha || c.isDigit || c == '.' || c == '-'

/-- The class `[A-Z|a-z]` of the email pattern (the `|` is a literal
member of the class, as written in the source). -/
def tldChar (c : Char) : Bool :=
  c.isAlpha || c == '|'

/-- `/\b[A-Za-z0-9._%+-]+@[A-Za-z0-9.-]+\.[A-Z|a-z]{2,}\b/g` -/
def emailRx : Rx :=
  .seq .wb (.seq (Rx.pls (.cls emailLocalChar))
    (.seq (Rx.chr '@') (.seq (Rx.pls (.cls emailDomainChar))
      (.seq (Rx.chr '.') (.seq (Rx.twoPlus (.cls tldChar)) .wb)))))

/-- `/https?:\/\/[^\s]+/g` -/
def urlRx : Rx :=
  .seq (Rx.lit "http".data)
    (.seq (Rx.opt (Rx.chr 's'))
      (.seq (Rx.lit "://".data)
        (Rx.pls (.cls (fun c => !jsWhitespaceChar c)))))

/-- `/\b[A-Z][a-z]+(?:\s+[A-Z][a-z]+)*\b/g` -/
def personRx : Rx :=
  .seq .wb (.seq (.cls Char.isUpper) (.seq (Rx.pls (.cls Char.isLower))
    (.seq (.star (.seq (Rx.pls (.cls jsWhitespaceChar))
        (.seq (.cls Char.isUpper) (Rx.pls (.cls Char.isLower)))))
      .wb)))

/-! ## Heuristic annotators (from the source) -/

/-- `classifyText`: keyword lookup with a fixed precedence chain. -/
def classifyText (text : String) : String :=
  let lowerText := jsToLower text
  if includesStr lowerText "sports" || includesStr lowerText "game" ||
      includesStr lowerText "team" then
    "Sports"
  else if includesStr lowerText "tech" || includesStr lowerText "software" ||
      includesStr lowerText "computer" then
    "Technology"
  else if includesStr lowerText "business" || includesStr lowerText "market" ||
      includesStr lowerText "economy" then
    "Business"
  else if includesStr lowerText "health" || includesStr lowerText "medical" ||
      includesStr lowerText "doctor" then
    "Health"
  else
    "General"

/-- The positive keyword list of `analyzeSentiment`. -/
def positiveWords : List String :=
  ["good", "great", "excellent", "amazing", "love", "wonderful", "best", "happy"]

/-- The negative keyword list of `analyzeSentiment`. -/
def negativeWords : List String :=
  ["bad", "terrible", "awful", "hate", "worst", "sad", "poor", "disappointing"]

/-- `analyzeSentiment`: positive-only / negative-only / neutral. -/
def analyzeSentiment (text : String) : String :=
  let lowerText := jsToLower text
  let hasPositive := positiveWords.any (fun word => includesStr lowerText word)
  let hasNegative := negativeWords.any (fun word => includesStr lowerText word)
  if hasPositive && !hasNegative then "Positive"
  else if hasNegative && !hasPositive then "Negative"
  else "Neutral"

/-- One extracted entity: `{ text, type }`. -/
structure Entity where
  text : String
  type : String
deriving DecidableEq, Repr

/-- `extractEntities`: email matches, then URL matches, then the first 3
capitalized-word-sequence matches. -/
def extractEntities (text : String) : List Entity :=
  let emails := jsMatchAll emailRx text
  let urls := jsMatchAll urlRx text
  let capitalizedWords := jsMatchAll personRx text
  emails.map (fun email => { text := email, type := "EMAIL" }) ++
    urls.map (fun url => { text := url, type := "URL" }) ++
    (capitalizedWords.take 3).map (fun word => { text := word, type := "PERSON" })

/-- `summarizeText`: passthrough at ≤ 10 space-delimited tokens, else the
first 10 tokens joined by single spaces plus an ellipsis. -/
def summarizeText (text : String) : String :=
  let words := jsSplit text ' '
  if words.length ≤ 10 then text
  else String.intercalate " " (words.take 10) ++ "..."

/-! ## Annotation batch processor (the `Deno.serve` handler) -/

/-- The parsed JSON request body. -/
structure AnnotationRequest where
  task_id : String
  file_content : String
  annotation_type : String

/-- The per-row result object pushed by the handler's `switch`; the
pseudo-random `confidence`/`score` fields are omitted (floating point,
decorative).  The `processed` constructor is the `default` branch's
`{ text, processed: true }`. -/
inductive AnnotationResult where
  | classification : String → String → AnnotationResult
  | sentimental : String → String → AnnotationResult
  | ner : String → List Entity → AnnotationResult
  | summarized : String → String → AnnotationResult
  | processed : String → AnnotationResult
deriving DecidableEq, Repr

/-- The `text` field every branch of the `switch` stores verbatim. -/
def AnnotationResult.text : AnnotationResult → String
  | .classification t _ => t
  | .sentimental t _ => t
  | .ner t _ => t
  | .summarized t _ => t
  | .processed t => t

/-- The body of the handler's loop: the `switch` on `annotation_type`. -/
def annotateRow (annotation_type : String) (row : String) : AnnotationResult :=
  match annotation_type with
  | "text-classification" => .classification row (classifyText row)
  | "sentiment-analysis" => .sentimental row (analyzeSentiment row)
  | "named-entity-recognition" => .ner row (extractEntities row)
  | "summarization" => .summarized row (summarizeText row)
  | _ => .processed row

/-- `file_content.split('\n').filter(row => row.trim())`: the rows that
survive blank-line filtering. -/
def survivingRows (file_content : String) : List String :=
  (jsSplit file_content '\n').filter (fun row => !(jsTrim row).data.isEmpty)

/-- The JSON body of the handler's success response. -/
structure SuccessBody where
  task_id : String
  annotations : List AnnotationResult
  total_processed : Nat
deriving DecidableEq, Repr

/-- A response body: `success: true` with its payload, or
`success: false` with an error message. -/
inductive ResponseBody where
  | ok : SuccessBody → ResponseBody
  | err : String → ResponseBody
deriving DecidableEq, Repr

/-- The `success` field of a response body. -/
def ResponseBody.isSuccess : ResponseBody → Bool
  | .ok _ => true
  | .err _ => false

/-- A response: HTTP status plus JSON body. -/
structure HttpResponse where
  status : Nat
  body : ResponseBody
deriving DecidableEq, Repr

/-- The handler's try branch: filter rows, loop over the first
`min(rows.length, 100)` rows pushing one result each, respond with the
collected list and its length. -/
def processRequest (r : AnnotationRequest) : SuccessBody :=
  let rows := survivingRows r.file_content
  let annotations := (rows.take 100).map (annotateRow r.annotation_type)
  { task_id := r.task_id
    annotations := annotations
    total_processed := annotations.length }

/-- The `Deno.serve` handler after the OPTIONS preflight branch: the
fallible body parse (`await req.json()`) is the `Except` argument; a
parse failure lands in the catch branch, which responds 400 with the
thrown error's message.  The success `Response` carries no explicit
status, so status 200. -/
def serveHandler (parsed : Except String AnnotationRequest) : HttpResponse :=
  match parsed with
  | .ok r => { status := 200, body := .ok (processRequest r) }
  | .error e => { status := 400, body := .err e }

/-! ## Keyword-set predicates used to state the classification claims -/

/-- The Sports keyword set. -/
def sportsKeywords : List String := ["sports", "game", "team"]

/-- The Technology keyword set. -/
def techKeywords : List String := ["tech", "software", "computer"]

/-- The Business keyword set. -/
def businessKeywords : List String := ["business", "market", "economy"]

/-- The Health keyword set. -/
def healthKeywords : List String := ["health", "medical", "doctor"]

/-- Does the lowercased text contain some keyword of the set? -/
def matchesAny (kws : List String) (text : String) : Bool :=
  kws.any (fun k => includesStr (jsToLower text) k)

/-- Does the lowercased text contain a positive keyword? -/
def hasPositiveWord (text : String) : Bool :=
  positiveWords.any (fun word => includesStr (jsToLower text) word)

/-- Does the lowercased text contain a negative keyword? -/
def hasNegativeWord (text : String) : Bool :=
  negativeWords.any (fun word => includesStr (jsToLower text) word)

/-- The input row of the spec's entity-extraction test property. -/
def c6Input : String := "contact a@b.com or https://x.io, Alice Smith"

/-- A file content with exactly 150 non-blank lines. -/
def fc150 : String := String.intercalate "\n" (List.replicate 150 "line")

/-! ## Theorems -/

/-- Every branch of the dispatch switch stores the input row verbatim in
the `text` field. -/
theorem annotateRow_text (t row : String) : (annotateRow t row).text = row := by
  unfold annotateRow
  split <;> rfl

/-- C2: `classifyText` always returns one of the five category names,
and it decides by lowercased substring membership in the fixed keyword
sets with precedence Sports > Technology > Business > Health, falling
back to General exactly when no set matches. -/
theorem classifyText_cases (s : String) :
    classifyText s ∈ ["Sports", "Technology", "Business", "Health", "General"] ∧
    classifyText s =
      (if matchesAny sportsKeywords s then "Sports"
       else if matchesAny techKeywords s then "Technology"
       else if matchesAny businessKeywords s then "Business"
       else if matchesAny healthKeywords s then "Health"
       else "General") := by
  have h2 : classifyText s =
      (if matchesAny sportsKeywords s then "Sports"
       else if matchesAny techKeywords s then "Technology"
       else if matchesAny businessKeywords s then "Business"
       else if matchesAny healthKeywords s then "Health"
       else "General") := by
    simp only [classifyText, matchesAny, sportsKeywords, techKeywords,
      businessKeywords, healthKeywords, List.any_cons, List.any_nil,
      Bool.or_false, Bool.or_assoc]
  refine ⟨?_, h2⟩
  rw [h2]
  repeat' split
  all_goals decide

/-- C3: `analyzeSentiment` returns Neutral when the lowercased text
contains both a positive and a negative keyword, or neither; Positive
exactly on a positive-only match; Negative exactly on a negative-only
match. -/
theorem analyzeSentiment_cases (s : String) :
    analyzeSentiment s ∈ ["Positive", "Negative", "Neutral"] ∧
    analyzeSentiment s =
      (if hasPositiveWord s then
        (if hasNegativeWord s then "Neutral" else "Positive")
       else (if hasNegativeWord s then "Negative" else "Neutral")) := by
  have h0 : analyzeSentiment s =
      (if hasPositiveWord s && !hasNegativeWord s then "Positive"
       else if hasNegativeWord s && !hasPositiveWord s then "Negative"
       else "Neutral") := rfl
  constructor
  · rw [h0]
    repeat' split
    all_goals decide
  · rw [h0]
    cases hp : hasPositiveWord s <;> cases hn : hasNegativeWord s <;> simp

/-- C4: the heuristics are total Lean functions (so they cannot throw),
and on the empty string they return General, Neutral, the empty entity
list, and the input unchanged, respectively. -/
theorem heuristics_total_on_empty :
    classifyText "" = "General" ∧ analyzeSentiment "" = "Neutral" ∧
    extractEntities "" = [] ∧ summarizeText "" = "" := by decide

/-- C5: on inputs with at most 10 space-delimited tokens `summarizeText`
is the identity, hence idempotent. -/
theorem summarizeText_idempotent (x : String)
    (h : (jsSplit x ' ').length ≤ 10) :
    summarizeText x = x ∧
    summarizeText (summarizeText x) = summarizeText x := by
  have hx : summarizeText x = x := by
    unfold summarizeText
    simp [h]
  exact ⟨hx, by rw [hx, hx]⟩

/-- Witness for C5 at the two-token input. -/
theorem summarizeText_idempotent_witness :
    (jsSplit "hello world" ' ').length ≤ 10 ∧
    summarizeText (summarizeText "hello world") = summarizeText "hello world" :=
  ⟨by decide, (summarizeText_idempotent "hello world" (by decide)).2⟩

/-- C8: when the request-body parse throws, the handler responds with
status 400 and a `success: false` body carrying the thrown error's
message, never a success-shaped body. -/
theorem parse_failure_gives_400 (e : String) :
    serveHandler (Except.error e) = ⟨400, .err e⟩ ∧
    (serveHandler (Except.error e)).body.isSuccess = false :=
  ⟨rfl, rfl⟩

/-- C10: for every annotation type the produced annotation stores the
input row verbatim in `text`, and batch output texts are exactly the
first 100 surviving rows. -/
theorem annotation_text_verbatim (t row task fc : String) :
    (annotateRow t row).text = row ∧
    (processRequest ⟨task, fc, t⟩).annotations.map AnnotationResult.text =
      (survivingRows fc).take 100 := by
  refine ⟨annotateRow_text t row, ?_⟩
  simp [processRequest, List.map_map, Function.comp_def, annotateRow_text]

/-- C7: blank and whitespace-only rows are discarded before processing:
on the five-row input with two blank rows the processor returns exactly
the three annotations for "a", "b", "c", and in general the annotation
list is the filtered row list capped at 100 and mapped through the
selected heuristic. -/
theorem blank_rows_dropped (task t : String) :
    (processRequest ⟨task, "a\n\nb\n \nc", t⟩).annotations.map
        AnnotationResult.text = ["a", "b", "c"] ∧
    (processRequest ⟨task, "a\n\nb\n \nc", t⟩).total_processed = 3 ∧
    ∀ fc, (processRequest ⟨task, fc, t⟩).annotations =
      (((jsSplit fc '\n').filter
          (fun row => !(jsTrim row).data.isEmpty)).take 100).map
        (annotateRow t) := by
  have hrows : survivingRows "a\n\nb\n \nc" = ["a", "b", "c"] := by decide
  refine ⟨?_, ?_, fun fc => rfl⟩
  · simp [processRequest, hrows, annotateRow_text]
  · simp [processRequest, hrows]

/-- C9: when every row of the content trims to empty the handler still
succeeds, with an empty annotation list and `total_processed = 0`; and
in every success response `total_processed` is the length of the
annotation list. -/
theorem whitespace_only_success (task t fc : String)
    (h : ∀ row ∈ jsSplit fc '\n', jsTrim row = "") :
    serveHandler (Except.ok ⟨task, fc, t⟩) = ⟨200, .ok ⟨task, [], 0⟩⟩ ∧
    ∀ fc2, (processRequest ⟨task, fc2, t⟩).total_processed =
      (processRequest ⟨task, fc2, t⟩).annotations.length := by
  have hrows : survivingRows fc = [] := by
    rw [survivingRows, List.filter_eq_nil_iff]
    intro a ha
    rw [h a ha]
    decide
  refine ⟨?_, fun fc2 => rfl⟩
  simp [serveHandler, processRequest, hrows]

/-- Witness for C9 at the whitespace-only content. -/
theorem whitespace_only_success_witness :
    ((jsSplit "\n \n" '\n').all (fun row => jsTrim row == "")) = true ∧
    serveHandler (Except.ok ⟨"t1", "\n \n", "text-classification"⟩) =
      ⟨200, .ok ⟨"t1", [], 0⟩⟩ :=
  ⟨by decide,
   (whitespace_only_success "t1" "text-classification" "\n \n" (by decide)).1⟩

/-- C1: on content with 150 surviving rows the handler succeeds, returns
exactly 100 annotations, reports `total_processed = 100`, and the i-th
annotation is the selected heuristic applied to the i-th surviving row. -/
theorem batch_caps_at_100 (task t fc : String)
    (h : (survivingRows fc).length = 150) :
    (serveHandler (Except.ok ⟨task, fc, t⟩)).body.isSuccess = true ∧
    (processRequest ⟨task, fc, t⟩).annotations.length = 100 ∧
    (processRequest ⟨task, fc, t⟩).total_processed = 100 ∧
    ∀ i, i < 100 →
      (processRequest ⟨task, fc, t⟩).annotations[i]? =
        ((survivingRows fc)[i]?).map (annotateRow t) := by
  have hann : (processRequest ⟨task, fc, t⟩).annotations
      = ((survivingRows fc).take 100).map (annotateRow t) := rfl
  have hlen : ((survivingRows fc).take 100).length = 100 := by
    rw [List.length_take, h]
    decide
  refine ⟨rfl, ?_, ?_, ?_⟩
  · rw [hann, List.length_map, hlen]
  · show (((survivingRows fc).take 100).map (annotateRow t)).length = 100
    rw [List.length_map, hlen]
  · intro i hi
    rw [hann, List.getElem?_map, List.getElem?_take]
    simp [hi]

set_option maxRecDepth 40000 in
/-- Witness for C1 at a 150-line content. -/
theorem batch_caps_at_100_witness :
    (survivingRows fc150).length = 150 ∧
    (processRequest ⟨"t1", fc150, "summarization"⟩).annotations.length = 100 ∧
    (processRequest ⟨"t1", fc150, "summarization"⟩).annotations[42]? =
      ((survivingRows fc150)[42]?).map (annotateRow "summarization") :=
  ⟨by decide,
   (batch_caps_at_100 "t1" "summarization" fc150 (by decide)).2.1,
   (batch_caps_at_100 "t1" "summarization" fc150 (by decide)).2.2.2 42
     (by decide)⟩

/-- C6 counterexample: on the spec's example input the single URL entity
keeps the trailing comma (the URL pattern greedily matches every
non-whitespace character), so no entity has text "https://x.io". -/
theorem url_entity_keeps_trailing_comma :
    (extractEntities c6Input).filter (fun e => e.type == "URL") =
      [{ text := "https://x.io,", type := "URL" }] ∧
    ({ text := "https://x.io", type := "URL" } : Entity) ∉
      extractEntities c6Input := by decide

/-- C6 amended: on the example input `extractEntities` returns exactly
one EMAIL entity "a@b.com", one URL entity "https://x.io," (with the
trailing comma), and one PERSON entity "Alice Smith" (so at most 3
PERSON entities). -/
theorem extractEntities_on_example :
    extractEntities c6Input =
      [{ text := "a@b.com", type := "EMAIL" },
       { text := "https://x.io,", type := "URL" },
       { text := "Alice Smith", type := "PERSON" }] ∧
    ((extractEntities c6Input).filter (fun e => e.type == "PERSON")).length ≤ 3 :=
  by decide
